import Mathlib

set_option maxRecDepth 100000

/-!
Shallow embedding of the LMStudioPlayground repository
(src/agent.py and src/tools_loop.py).

Python strings are modelled as Lean `String`/`List Char` (Python indexes by
code point, as does `List Char`).  Python's `str` methods used by the source
(`strip`, `lower`, `startswith`, slicing, `split`, `replace`) are modelled by
explicit char-wise helpers below.  The filesystem is modelled as a map from
resolved absolute path strings to file contents; OS-level write failures
(permissions, directories) are outside the model.  `json.loads` / `json.dumps`
are modelled by an executable JSON parser / serializer over a `JVal` type
(Python's NaN/Infinity extensions and lone-surrogate escapes are noted where
approximated).  Python `eval` on the calc allow-list grammar is modelled by an
executable integer arithmetic evaluator (float-producing operations, which no
claim exercises, yield a modelling error).  Exceptions are modelled with
`Except`; exception *messages* are approximated where the code only relies on
the fact that an exception occurred.
-/

-- ===== char-wise models of the Python str methods used by the source =====

/-- Whitespace recognised by Python `str.strip` and regex `\s` (ASCII range;
unicode whitespace is not exercised by the source). -/
def pyIsSpace (c : Char) : Bool :=
  c = ' ' || c = '\t' || c = '\n' || c = '\x0b' || c = '\x0c' || c = '\r'

/-- Python `str.strip()`. -/
def pyStrip (s : String) : String :=
  String.mk (((s.data.dropWhile pyIsSpace).reverse.dropWhile pyIsSpace).reverse)

/-- Python `str.lstrip()`. -/
def pyLStrip (s : String) : String :=
  String.mk (s.data.dropWhile pyIsSpace)

/-- Python `str.lower()` (ASCII case mapping, as exercised by the source). -/
def pyLower (s : String) : String :=
  String.mk (s.data.map Char.toLower)

/-- Python `s.startswith(pre)`. -/
def pyStartsWith (s pre : String) : Bool :=
  pre.data.isPrefixOf s.data

/-- Python slicing `s[:n]`. -/
def strTake (n : Nat) (s : String) : String :=
  String.mk (s.data.take n)

/-- Python slicing `s[n:]`. -/
def strDrop (n : Nat) (s : String) : String :=
  String.mk (s.data.drop n)

/-- Python `s.rstrip(chars)`: drop trailing characters in `set`. -/
def rstripSet (set : List Char) (s : String) : String :=
  String.mk ((s.data.reverse.dropWhile (fun c => set.contains c)).reverse)

/-- Whether `sub` occurs in `l` (Python `in` on strings). -/
def hasSubList (sub : List Char) : List Char → Bool
  | [] => sub.isEmpty
  | c :: cs => sub.isPrefixOf (c :: cs) || hasSubList sub cs

/-- Python substring test `sub in s`. -/
def hasSub (s sub : String) : Bool :=
  hasSubList sub.data s.data

/-- Split a char list on a separator (Python `str.split(sep)` semantics:
`"".split(sep) = [""]`, adjacent separators give empty pieces). -/
def splitOnCharList (sep : Char) : List Char → List (List Char)
  | [] => [[]]
  | c :: cs =>
    let r := splitOnCharList sep cs
    if c = sep then [] :: r
    else
      match r with
      | h :: t => (c :: h) :: t
      | [] => [[c]]

-- ===== path resolution (os.path.join + os.path.abspath) and the filesystem =====

/-- One pass of `os.path.normpath` over already-split components of an
*absolute* path: empty and `"."` components are dropped, `".."` pops the last
component (and is dropped at the root). -/
def normAbs (comps : List String) : List String :=
  comps.foldl
    (fun acc c =>
      if c = "" ∨ c = "." then acc
      else if c = ".." then acc.dropLast
      else acc ++ [c])
    []

/-- Render absolute-path components as the string `os.path.normpath` returns
(`[] ↦ "/"`). -/
def pathStr (comps : List String) : String :=
  "/" ++ String.intercalate "/" comps

/-- `os.path.abspath(os.path.join(ROOT, path))` where `ROOT` is given by its
(normalised) absolute components: an absolute `path` replaces the root,
otherwise the components are appended; then the result is normalised. -/
def resolveAbs (root : List String) (path : String) : List String :=
  if pyStartsWith path "/" then
    normAbs ((splitOnCharList '/' path.data).map String.mk)
  else
    normAbs (root ++ (splitOnCharList '/' path.data).map String.mk)

/-- The filesystem: a map from resolved absolute path strings to contents.
`some` means `os.path.isfile` holds. -/
abbrev FS : Type := String → Option String

/-- Overwrite (or create) the file at resolved path `k`. -/
def fsUpdate (fs : FS) (k v : String) : FS :=
  fun p => if p = k then some v else fs p

-- ===== JSON values: model of what json.loads / json.dumps operate on =====

/-- A parsed JSON value (Python object produced by `json.loads`).  Numbers
keep their source lexeme: no claim inspects a numeric value, only truthiness,
which the lexeme determines. -/
inductive JVal where
  | null : JVal
  | bool : Bool → JVal
  | num : String → JVal
  | str : String → JVal
  | arr : List JVal → JVal
  | obj : List (String × JVal) → JVal

/-- A JSON object (Python `dict` with string keys); parsing keeps keys
unique, so plain lookup models `dict.__getitem__`. -/
abbrev JObj : Type := List (String × JVal)

/-- First (unique) binding of `k`. -/
def jLookup (o : JObj) (k : String) : Option JVal :=
  match o with
  | [] => none
  | (k', v) :: rest => if k' = k then some v else jLookup rest k

/-- Python `dict.get(k)`: a missing key and a stored JSON `null` both come
back as Python `None`, so they are conflated here. -/
def pyGet (o : JObj) (k : String) : Option JVal :=
  match jLookup o k with
  | some JVal.null => none
  | r => r

/-- Insert with Python `dict` semantics: a duplicate key keeps its original
position but takes the new value. -/
def objInsert (o : JObj) (k : String) (v : JVal) : JObj :=
  match o with
  | [] => [(k, v)]
  | (k', v') :: rest =>
    if k' = k then (k', v) :: rest else (k', v') :: objInsert rest k v

/-- Truthiness of a numeric lexeme (`0`, `-0.00`, `0e5` are falsy; `NaN` and
`Infinity` are truthy). -/
def numTruthy (raw : String) : Bool :=
  let mantissa := (splitOnCharList 'e' (pyLower raw).data).headD []
  let digits := mantissa.filter Char.isDigit
  !(digits.length ≠ 0 && digits.all (fun c => c = '0')) ||
    digits.isEmpty  -- no digits at all (NaN / Infinity): truthy

/-- Python truthiness of a JSON-derived object. -/
def truthy : JVal → Bool
  | JVal.null => false
  | JVal.bool b => b
  | JVal.num raw => numTruthy raw
  | JVal.str s => !s.data.isEmpty
  | JVal.arr xs => !xs.isEmpty
  | JVal.obj o => !o.isEmpty

-- ===== json.loads: an executable JSON parser =====

/-- JSON structural whitespace. -/
def jsonWs (c : Char) : Bool :=
  c = ' ' || c = '\t' || c = '\n' || c = '\r'

def skipJsonWs (l : List Char) : List Char :=
  l.dropWhile jsonWs

def isHexDigit (c : Char) : Bool :=
  c.isDigit || ('a' ≤ c && c ≤ 'f') || ('A' ≤ c && c ≤ 'F')

def hexVal (c : Char) : Nat :=
  if c.isDigit then c.toNat - '0'.toNat
  else if 'a' ≤ c && c ≤ 'f' then c.toNat - 'a'.toNat + 10
  else c.toNat - 'A'.toNat + 10

/-- Parse `\uXXXX` after the backslash-u: four hex digits. -/
def jpHex4 (l : List Char) : Option (Nat × List Char) :=
  match l with
  | a :: b :: c :: d :: rest =>
    if isHexDigit a && isHexDigit b && isHexDigit c && isHexDigit d then
      some (((hexVal a * 16 + hexVal b) * 16 + hexVal c) * 16 + hexVal d, rest)
    else none
  | _ => none

/-- Body of a JSON string after the opening quote.  Strict mode: unescaped
control characters are rejected.  Surrogate pairs combine; a lone surrogate
(representable in Python, not in Lean `Char`) degrades to `Char.ofNat`'s
fallback — no claim exercises it. -/
def jpStringBody : Nat → List Char → Option (List Char × List Char)
  | 0, _ => none
  | _ + 1, [] => none
  | fuel + 1, c :: rest =>
    if c = '"' then some ([], rest)
    else if c = '\\' then
      match rest with
      | [] => none
      | e :: rest2 =>
        let cont (ch : Char) (r : List Char) : Option (List Char × List Char) :=
          (jpStringBody fuel r).map (fun p => (ch :: p.1, p.2))
        if e = '"' then cont '"' rest2
        else if e = '\\' then cont '\\' rest2
        else if e = '/' then cont '/' rest2
        else if e = 'b' then cont '\x08' rest2
        else if e = 'f' then cont '\x0c' rest2
        else if e = 'n' then cont '\n' rest2
        else if e = 'r' then cont '\r' rest2
        else if e = 't' then cont '\t' rest2
        else if e = 'u' then
          match jpHex4 rest2 with
          | none => none
          | some (hi, rest3) =>
            if 0xD800 ≤ hi ∧ hi ≤ 0xDBFF then
              match rest3 with
              | '\\' :: 'u' :: rest4 =>
                match jpHex4 rest4 with
                | some (lo, rest5) =>
                  if 0xDC00 ≤ lo ∧ lo ≤ 0xDFFF then
                    cont (Char.ofNat (0x10000 + (hi - 0xD800) * 0x400 + (lo - 0xDC00))) rest5
                  else cont (Char.ofNat hi) rest3
                | none => cont (Char.ofNat hi) rest3
              | _ => cont (Char.ofNat hi) rest3
            else cont (Char.ofNat hi) rest3
        else none
    else if c.toNat < 0x20 then none
    else (jpStringBody fuel rest).map (fun p => (c :: p.1, p.2))

/-- JSON number lexeme: the maximal match of
`-? (0 | [1-9][0-9]*) (\.[0-9]+)? ([eE][+-]?[0-9]+)?` (as in Python's json
scanner); what follows is left in the input and rejected by the caller. -/
def jpNumber (l : List Char) : Option (List Char × List Char) :=
  let sign : List Char × List Char :=
    match l with
    | '-' :: rest => (['-'], rest)
    | _ => ([], l)
  let sgn := sign.1
  let l1 := sign.2
  match l1 with
  | [] => none
  | c :: _ =>
    if !c.isDigit then none
    else
      let ds := if c = '0' then ['0'] else l1.takeWhile Char.isDigit
      let l2 := l1.drop ds.length
      let frac : List Char × List Char :=
        match l2 with
        | '.' :: rest =>
          let fd := rest.takeWhile Char.isDigit
          if fd.isEmpty then ([], l2) else ('.' :: fd, rest.drop fd.length)
        | _ => ([], l2)
      let l3 := frac.2
      let ex : List Char × List Char :=
        match l3 with
        | e :: rest =>
          if e = 'e' ∨ e = 'E' then
            let signedTail : List Char × List Char :=
              match rest with
              | s :: r2 => if s = '+' ∨ s = '-' then ([s], r2) else ([], rest)
              | [] => ([], rest)
            let ed := signedTail.2.takeWhile Char.isDigit
            if ed.isEmpty then ([], l3)
            else (e :: signedTail.1 ++ ed, signedTail.2.drop ed.length)
          else ([], l3)
        | [] => ([], l3)
      some (sgn ++ ds ++ frac.1 ++ ex.1, ex.2)

mutual

/-- Parse one JSON value (leading whitespace allowed), returning the value and
the remaining input.  `json.loads` also accepts the Python extensions `NaN`,
`Infinity` and `-Infinity`, modelled as numeric lexemes. -/
def jpValue : Nat → List Char → Option (JVal × List Char)
  | 0, _ => none
  | fuel + 1, l =>
    match skipJsonWs l with
    | [] => none
    | c :: rest =>
      if c = '"' then
        (jpStringBody (fuel + 1) rest).map (fun p => (JVal.str (String.mk p.1), p.2))
      else if c = Char.ofNat 123 then
        match skipJsonWs rest with
        | c2 :: rest2 =>
          if c2 = Char.ofNat 125 then some (JVal.obj [], rest2)
          else jpMembers fuel [] (c2 :: rest2)
        | [] => none
      else if c = '[' then
        match skipJsonWs rest with
        | c2 :: rest2 =>
          if c2 = ']' then some (JVal.arr [], rest2)
          else jpElems fuel [] (c2 :: rest2)
        | [] => none
      else if c = 't' then
        match rest with
        | 'r' :: 'u' :: 'e' :: r => some (JVal.bool true, r)
        | _ => none
      else if c = 'f' then
        match rest with
        | 'a' :: 'l' :: 's' :: 'e' :: r => some (JVal.bool false, r)
        | _ => none
      else if c = 'n' then
        match rest with
        | 'u' :: 'l' :: 'l' :: r => some (JVal.null, r)
        | _ => none
      else if c = 'N' then
        match rest with
        | 'a' :: 'N' :: r => some (JVal.num "NaN", r)
        | _ => none
      else if c = 'I' then
        match rest with
        | 'n' :: 'f' :: 'i' :: 'n' :: 'i' :: 't' :: 'y' :: r => some (JVal.num "Infinity", r)
        | _ => none
      else if c = '-' then
        match rest with
        | 'I' :: 'n' :: 'f' :: 'i' :: 'n' :: 'i' :: 't' :: 'y' :: r =>
          some (JVal.num "-Infinity", r)
        | _ =>
          (jpNumber (c :: rest)).map (fun p => (JVal.num (String.mk p.1), p.2))
      else
        (jpNumber (c :: rest)).map (fun p => (JVal.num (String.mk p.1), p.2))

/-- Members of a JSON object, positioned at the first character of a key
(duplicate keys follow Python `dict` update semantics). -/
def jpMembers : Nat → JObj → List Char → Option (JVal × List Char)
  | 0, _, _ => none
  | fuel + 1, acc, l =>
    match skipJsonWs l with
    | '"' :: rest =>
      match jpStringBody (fuel + 1) rest with
      | none => none
      | some (key, rest2) =>
        match skipJsonWs rest2 with
        | ':' :: rest3 =>
          match jpValue fuel rest3 with
          | none => none
          | some (v, rest4) =>
            let acc2 := objInsert acc (String.mk key) v
            match skipJsonWs rest4 with
            | ',' :: rest5 => jpMembers fuel acc2 rest5
            | c :: rest5 =>
              if c = Char.ofNat 125 then some (JVal.obj acc2, rest5) else none
            | [] => none
        | _ => none
    | _ => none

/-- Elements of a JSON array, positioned at the first character of a value. -/
def jpElems : Nat → List JVal → List Char → Option (JVal × List Char)
  | 0, _, _ => none
  | fuel + 1, acc, l =>
    match jpValue fuel l with
    | none => none
    | some (v, rest) =>
      match skipJsonWs rest with
      | ',' :: rest2 => jpElems fuel (acc ++ [v]) rest2
      | ']' :: rest2 => some (JVal.arr (acc ++ [v]), rest2)
      | _ => none

end

/-- `json.loads`: parse a complete JSON document (whitespace allowed around;
anything trailing is an error). -/
def jsonLoads (s : String) : Option JVal :=
  match jpValue (s.data.length + 1) s.data with
  | none => none
  | some (v, rest) => if (skipJsonWs rest).isEmpty then some v else none

-- ===== json.dumps and Python str() =====

def hexDigitChar (n : Nat) : Char :=
  if n < 10 then Char.ofNat ('0'.toNat + n) else Char.ofNat ('a'.toNat + n - 10)

def hex4 (n : Nat) : List Char :=
  [hexDigitChar (n / 4096 % 16), hexDigitChar (n / 256 % 16),
   hexDigitChar (n / 16 % 16), hexDigitChar (n % 16)]

/-- `json.dumps` escaping of one character (default `ensure_ascii=True`:
non-ASCII becomes `\uXXXX`, using a surrogate pair beyond the BMP). -/
def jsonEscapeChar (c : Char) : List Char :=
  if c = '"' then ['\\', '"']
  else if c = '\\' then ['\\', '\\']
  else if c = '\n' then ['\\', 'n']
  else if c = '\r' then ['\\', 'r']
  else if c = '\t' then ['\\', 't']
  else if c = '\x08' then ['\\', 'b']
  else if c = '\x0c' then ['\\', 'f']
  else if c.toNat < 0x20 then '\\' :: 'u' :: hex4 c.toNat
  else if c.toNat ≤ 0x7e then [c]
  else if c.toNat < 0x10000 then '\\' :: 'u' :: hex4 c.toNat
  else
    let n := c.toNat - 0x10000
    ('\\' :: 'u' :: hex4 (0xD800 + n / 0x400)) ++ ('\\' :: 'u' :: hex4 (0xDC00 + n % 0x400))

def jsonQuote (s : String) : String :=
  "\"" ++ String.mk (s.data.foldr (fun c acc => jsonEscapeChar c ++ acc) []) ++ "\""

mutual

/-- `json.dumps` with the default separators `(', ', ': ')`.  Numbers are
emitted as their stored lexeme (Python would re-format floats; no claim
serializes a float). -/
def jdump : JVal → String
  | JVal.null => "null"
  | JVal.bool b => if b then "true" else "false"
  | JVal.num raw => raw
  | JVal.str s => jsonQuote s
  | JVal.arr xs => "[" ++ jdumpElems xs ++ "]"
  | JVal.obj o => "\x7b" ++ jdumpMembers o ++ "\x7d"

def jdumpElems : List JVal → String
  | [] => ""
  | [x] => jdump x
  | x :: y :: rest => jdump x ++ ", " ++ jdumpElems (y :: rest)

def jdumpMembers : List (String × JVal) → String
  | [] => ""
  | [(k, v)] => jsonQuote k ++ ": " ++ jdump v
  | (k, v) :: m :: rest => jsonQuote k ++ ": " ++ jdump v ++ ", " ++ jdumpMembers (m :: rest)

end

mutual

/-- Python `repr` of a JSON-derived object (single-quoted strings; escaping
inside `repr` is approximated — no claim exercises it). -/
def pyRepr : JVal → String
  | JVal.null => "None"
  | JVal.bool b => if b then "True" else "False"
  | JVal.num raw => raw
  | JVal.str s => "'" ++ s ++ "'"
  | JVal.arr xs => "[" ++ pyReprElems xs ++ "]"
  | JVal.obj o => "\x7b" ++ pyReprMembers o ++ "\x7d"

def pyReprElems : List JVal → String
  | [] => ""
  | [x] => pyRepr x
  | x :: y :: rest => pyRepr x ++ ", " ++ pyReprElems (y :: rest)

def pyReprMembers : List (String × JVal) → String
  | [] => ""
  | [(k, v)] => "'" ++ k ++ "': " ++ pyRepr v
  | (k, v) :: m :: rest => "'" ++ k ++ "': " ++ pyRepr v ++ ", " ++ pyReprMembers (m :: rest)

end

/-- Python `str()` of a JSON-derived object (`str` of a string is itself;
containers go through `repr`; float re-formatting is approximated by the
stored lexeme). -/
def pyStr : JVal → String
  | JVal.str s => s
  | JVal.null => "None"
  | JVal.bool b => if b then "True" else "False"
  | JVal.num raw => raw
  | v => pyRepr v

-- ===== ProtocolExtractor: extract_last_json_dict =====
-- (identical routine in src/agent.py lines 110-130 and src/tools_loop.py
-- lines 84-98)

def lbrace : Char := Char.ofNat 123
def rbrace : Char := Char.ofNat 125

/-- `json.loads` on a brace-balanced fragment, kept only when it is a dict
(`isinstance(obj, dict)`). -/
def fragParse (g : List Char) : Option JObj :=
  match jsonLoads (String.mk g) with
  | some (JVal.obj o) => some o
  | _ => none

/-- One character of the scanning loop of `extract_last_json_dict`.  The
Python code records the start index at each 0→1 depth transition and slices
`text[start:i+1]` at each 1→0 transition; the slice is modelled by
accumulating the characters seen since the recorded start into `buf`. -/
def exStep (st : Nat × List Char × Option JObj) (c : Char) : Nat × List Char × Option JObj :=
  let depth := st.1
  let buf := st.2.1
  let last := st.2.2
  if c = lbrace then
    if depth = 0 then (1, [c], last) else (depth + 1, buf ++ [c], last)
  else if c = rbrace then
    if depth = 0 then (depth, buf, last)
    else if depth = 1 then
      (0, [],
        match fragParse (buf ++ [c]) with
        | some j => some j
        | none => last)
    else (depth - 1, buf ++ [c], last)
  else
    (depth, if depth = 0 then buf else buf ++ [c], last)

/-- `extract_last_json_dict(text)`: the last top-level brace-balanced
fragment that parses as a JSON object, or `None`. -/
def extract_last_json_dict (text : String) : Option JObj :=
  (text.data.foldl exStep (0, [], none)).2.2

/-- Spec-side description: the successive top-level brace-balanced fragments
of the text, given the current nesting depth and the characters accumulated
since the last 0→1 transition. -/
def groupsAux : Nat → List Char → List Char → List (List Char)
  | _, _, [] => []
  | depth, buf, c :: cs =>
    if c = lbrace then
      if depth = 0 then groupsAux 1 [c] cs else groupsAux (depth + 1) (buf ++ [c]) cs
    else if c = rbrace then
      if depth = 0 then groupsAux depth buf cs
      else if depth = 1 then (buf ++ [c]) :: groupsAux 0 [] cs
      else groupsAux (depth - 1) (buf ++ [c]) cs
    else groupsAux depth (if depth = 0 then buf else buf ++ [c]) cs

/-- The top-level brace-balanced fragments of a text. -/
def topGroups (text : String) : List (List Char) :=
  groupsAux 0 [] text.data

-- ===== Python eval on the calc allow-list grammar =====

inductive ATok where
  | num : Nat → ATok
  | add : ATok
  | sub : ATok
  | mul : ATok
  | divi : ATok
  | pow : ATok
  | lp : ATok
  | rp : ATok

def digitsToNat (ds : List Char) : Nat :=
  ds.foldl (fun a c => a * 10 + (c.toNat - '0'.toNat)) 0

/-- Tokenizer for the expressions that pass the calc allow-list (after the
`^ → **` rewrite).  Python 3 rejects integer literals with leading zeros;
float literals (a `.`) produce Python floats, which no claim exercises, so
they yield a modelling error (observably: an error, as in Python the
evaluation result would not be an int). -/
def aTokenize : Nat → List Char → Option (List ATok)
  | 0, _ => none
  | _ + 1, [] => some []
  | fuel + 1, c :: cs =>
    if pyIsSpace c then aTokenize fuel cs
    else if c.isDigit then
      let ds := (c :: cs).takeWhile Char.isDigit
      if ds.length > 1 ∧ c = '0' then none
      else
        match aTokenize fuel ((c :: cs).drop ds.length) with
        | some ts =>
          match ((c :: cs).drop ds.length) with
          | '.' :: _ => none
          | _ => some (ATok.num (digitsToNat ds) :: ts)
        | none => none
    else if c = '*' then
      match cs with
      | '*' :: rest => (aTokenize fuel rest).map (fun ts => ATok.pow :: ts)
      | _ => (aTokenize fuel cs).map (fun ts => ATok.mul :: ts)
    else if c = '+' then (aTokenize fuel cs).map (fun ts => ATok.add :: ts)
    else if c = '-' then (aTokenize fuel cs).map (fun ts => ATok.sub :: ts)
    else if c = '/' then (aTokenize fuel cs).map (fun ts => ATok.divi :: ts)
    else if c = '(' then (aTokenize fuel cs).map (fun ts => ATok.lp :: ts)
    else if c = ')' then (aTokenize fuel cs).map (fun ts => ATok.rp :: ts)
    else none

mutual

/-- `expr := term (('+'|'-') term)*` with Python semantics over ints. -/
def aExpr : Nat → List ATok → Except String (Int × List ATok)
  | 0, _ => Except.error "SyntaxError: expression too deep"
  | fuel + 1, ts =>
    match aTerm fuel ts with
    | Except.error e => Except.error e
    | Except.ok (v, r) => aExprTail fuel v r

def aExprTail : Nat → Int → List ATok → Except String (Int × List ATok)
  | 0, _, _ => Except.error "SyntaxError: expression too deep"
  | fuel + 1, acc, ts =>
    match ts with
    | ATok.add :: rest =>
      match aTerm fuel rest with
      | Except.error e => Except.error e
      | Except.ok (v, r) => aExprTail fuel (acc + v) r
    | ATok.sub :: rest =>
      match aTerm fuel rest with
      | Except.error e => Except.error e
      | Except.ok (v, r) => aExprTail fuel (acc - v) r
    | _ => Except.ok (acc, ts)

/-- `term := factor (('*'|'/') factor)*`; true division always yields a
Python float, which no claim exercises — modelling error. -/
def aTerm : Nat → List ATok → Except String (Int × List ATok)
  | 0, _ => Except.error "SyntaxError: expression too deep"
  | fuel + 1, ts =>
    match aFactor fuel ts with
    | Except.error e => Except.error e
    | Except.ok (v, r) => aTermTail fuel v r

def aTermTail : Nat → Int → List ATok → Except String (Int × List ATok)
  | 0, _, _ => Except.error "SyntaxError: expression too deep"
  | fuel + 1, acc, ts =>
    match ts with
    | ATok.mul :: rest =>
      match aFactor fuel rest with
      | Except.error e => Except.error e
      | Except.ok (v, r) => aTermTail fuel (acc * v) r
    | ATok.divi :: _ => Except.error "true division yields a float (not modelled)"
    | _ => Except.ok (acc, ts)

/-- `factor := ('+'|'-') factor | power` (Python unary binds looser than `**`). -/
def aFactor : Nat → List ATok → Except String (Int × List ATok)
  | 0, _ => Except.error "SyntaxError: expression too deep"
  | fuel + 1, ts =>
    match ts with
    | ATok.sub :: rest =>
      match aFactor fuel rest with
      | Except.error e => Except.error e
      | Except.ok (v, r) => Except.ok (-v, r)
    | ATok.add :: rest => aFactor fuel rest
    | _ => aPower fuel ts

/-- `power := atom ('**' factor)?` (right-associative); a negative exponent
yields a Python float, which no claim exercises — modelling error. -/
def aPower : Nat → List ATok → Except String (Int × List ATok)
  | 0, _ => Except.error "SyntaxError: expression too deep"
  | fuel + 1, ts =>
    match aAtom fuel ts with
    | Except.error e => Except.error e
    | Except.ok (b, r) =>
      match r with
      | ATok.pow :: rest =>
        match aFactor fuel rest with
        | Except.error e => Except.error e
        | Except.ok (e, r2) =>
          if e < 0 then Except.error "negative exponent yields a float (not modelled)"
          else Except.ok (b ^ e.toNat, r2)
      | _ => Except.ok (b, r)

def aAtom : Nat → List ATok → Except String (Int × List ATok)
  | 0, _ => Except.error "SyntaxError: expression too deep"
  | fuel + 1, ts =>
    match ts with
    | ATok.num n :: rest => Except.ok ((n : Int), rest)
    | ATok.lp :: rest =>
      match aExpr fuel rest with
      | Except.error e => Except.error e
      | Except.ok (v, r) =>
        match r with
        | ATok.rp :: r2 => Except.ok (v, r2)
        | _ => Except.error "SyntaxError: unbalanced parenthesis"
    | _ => Except.error "SyntaxError: invalid expression"

end

/-- Model of Python `eval(expr, {"__builtins__": {}}, {"math": math})` on
expressions drawn from the calc allow-list (after `^ → **`): integer
arithmetic is modelled exactly; float-producing operations return a modelling
error (in Python too, evaluation of those either raises or does not return an
int).  Exception messages are approximated. -/
def pyEvalArith (s : String) : Except String Int :=
  match aTokenize (s.data.length + 1) s.data with
  | none => Except.error "SyntaxError: invalid syntax"
  | some ts =>
    match aExpr (ts.length * 8 + 16) ts with
    | Except.error e => Except.error e
    | Except.ok (v, rest) =>
      if rest.isEmpty then Except.ok v else Except.error "SyntaxError: invalid syntax"

/-- Python `expr.replace("^", "**")`. -/
def caretRewrite (s : String) : String :=
  String.mk (s.data.foldr (fun c acc => if c = '^' then '*' :: '*' :: acc else c :: acc) [])

-- ===== sandbox predicate shared by both tool sets =====

/-- The sandbox check both files apply: the resolved absolute path string
must start with the project root string (`abs_path.startswith(ROOT)`). -/
def inSandbox (root : List String) (path : String) : Bool :=
  pyStartsWith (pathStr (resolveAbs root path)) (pathStr root)

-- ===== src/agent.py tool implementations (dict args, error strings) =====

namespace Agent

/-- `read_file` from src/agent.py lines 33-43.  `args.get("path", "")` is
modelled by a `path : String` parameter (a missing key gives `""`). -/
def read_file (root : List String) (fs : FS) (path : String) : String :=
  if path = "" then "ERROR: missing path"
  else
    let abs_path := pathStr (resolveAbs root path)
    if !pyStartsWith abs_path (pathStr root) then "ERROR: path outside project"
    else
      match fs abs_path with
      | none => "ERROR: file not found: " ++ path
      | some content => strTake 4000 content

/-- `write_file` from src/agent.py lines 45-58 (the `try` around the ideal
filesystem write cannot fire in the model). -/
def write_file (root : List String) (fs : FS) (path text : String) : FS × String :=
  if path = "" then (fs, "ERROR: missing path")
  else
    let abs_path := pathStr (resolveAbs root path)
    if !pyStartsWith abs_path (pathStr root) then (fs, "ERROR: path outside project")
    else
      (fsUpdate fs abs_path text,
       "[wrote " ++ toString text.length ++ " chars to " ++ path ++ "]")

end Agent

/-- The character allow-list `SAFE_EXPR = ^[0-9+\-*/().\s^]*$` shared by both
files (regex `match` + `$`, i.e. every character is in the class). -/
def isSafeChar (c : Char) : Bool :=
  c.isDigit || c = '+' || c = '-' || c = '*' || c = '/' || c = '(' || c = ')' ||
    c = '.' || c = '^' || pyIsSpace c

def safeExpr (expr : String) : Bool :=
  expr.data.all isSafeChar

namespace Agent

/-- `calc` from src/agent.py lines 61-69, parameterized by the evaluator so
that "never evaluated" is expressible (`eval` is only consulted on the safe
branch, after the `^ → **` rewrite). -/
def calc_gen (ev : String → Except String Int) (expr : String) : String :=
  if !safeExpr expr then "ERROR: invalid characters"
  else
    match ev (caretRewrite expr) with
    | Except.ok v => toString v
    | Except.error e => "ERROR: " ++ e

/-- `calc` from src/agent.py with the `eval` model plugged in (named
`calcTool` because `calc` is reserved in Lean). -/
def calcTool (expr : String) : String :=
  calc_gen pyEvalArith expr

end Agent

-- ===== src/tools_loop.py tool implementations (raise → Except) =====

namespace ToolsLoop

/-- `read_file` from src/tools_loop.py lines 33-38 (`raise ValueError`
becomes `Except.error` with the exception's message). -/
def read_fileE (root : List String) (fs : FS) (path : String) : Except String String :=
  let p := pathStr (resolveAbs root path)
  if !pyStartsWith p (pathStr root) then Except.error "path outside project"
  else
    match fs p with
    | none => Except.error ("not a file: " ++ p)
    | some content => Except.ok (strTake 8000 content)

/-- `write_file` from src/tools_loop.py lines 40-44. -/
def write_fileE (root : List String) (fs : FS) (path text : String) :
    Except String (FS × String) :=
  let p := pathStr (resolveAbs root path)
  if !pyStartsWith p (pathStr root) then Except.error "path outside project"
  else
    Except.ok (fsUpdate fs p text,
      "[wrote " ++ toString text.length ++ " chars to " ++ path ++ "]")

/-- `calc` from src/tools_loop.py lines 46-49, parameterized by the
evaluator (see `Agent.calc_gen`). -/
def calc_gen (ev : String → Except String Int) (expr : String) : Except String String :=
  if !safeExpr expr then Except.error "bad chars in expr"
  else
    match ev (caretRewrite expr) with
    | Except.ok v => Except.ok (toString v)
    | Except.error e => Except.error e

/-- `calc` from src/tools_loop.py with the `eval` model plugged in (named
`calcTool` because `calc` is reserved in Lean). -/
def calcTool (expr : String) : Except String String :=
  calc_gen pyEvalArith expr

/-- `NUM_RE` core: `\d+(\.\d*)? | \.\d+` at the current position (first
alternative preferred, both greedy). -/
def numCore (l : List Char) : Option (List Char) :=
  match l with
  | [] => none
  | c :: cs =>
    if c.isDigit then
      let ds := (c :: cs).takeWhile Char.isDigit
      let rest := (c :: cs).drop ds.length
      match rest with
      | '.' :: tl => some (ds ++ '.' :: tl.takeWhile Char.isDigit)
      | _ => some ds
    else if c = '.' then
      let fd := cs.takeWhile Char.isDigit
      if fd.isEmpty then none else some ('.' :: fd)
    else none

/-- `NUM_RE = [+-]?(?:\d+(?:\.\d*)?|\.\d+)` at one position (the optional
sign is consumed first; on failure the engine retries without it). -/
def numAt (l : List Char) : Option (List Char) :=
  match l with
  | [] => none
  | c :: cs =>
    if c = '+' ∨ c = '-' then
      match numCore cs with
      | some m => some (c :: m)
      | none => numCore (c :: cs)
    else numCore (c :: cs)

/-- Leftmost-position regex search. -/
def scanFirst (f : List Char → Option (List Char)) : List Char → Option (List Char)
  | [] => f []
  | c :: cs =>
    match f (c :: cs) with
    | some m => some m
    | none => scanFirst f cs

/-- `find_number` from src/tools_loop.py lines 51-54. -/
def find_numberE (text : String) : Except String String :=
  match scanFirst numAt text.data with
  | some m => Except.ok (String.mk m)
  | none => Except.error "no number found"

/-- Check a keyword-argument dict against a one-parameter signature
(`**a` raises `TypeError` on a missing or unexpected keyword; messages are
approximated). -/
def expect1 (a : JObj) (k : String) : Except String JVal :=
  match a with
  | [(k', v)] =>
    if k' = k then Except.ok v
    else Except.error ("got an unexpected keyword argument '" ++ k' ++ "'")
  | [] => Except.error ("missing 1 required positional argument: '" ++ k ++ "'")
  | _ => Except.error "got unexpected keyword arguments"

/-- Check a keyword-argument dict against a two-parameter signature. -/
def expect2 (a : JObj) (k1 k2 : String) : Except String (JVal × JVal) :=
  if a.length = 2 then
    match jLookup a k1, jLookup a k2 with
    | some v1, some v2 => Except.ok (v1, v2)
    | _, _ => Except.error "missing or unexpected keyword argument"
  else Except.error "wrong number of keyword arguments"

/-- A tool argument used where Python expects `str` (a non-string raises
`TypeError` inside the tool body; message approximated). -/
def asStr (v : JVal) : Except String String :=
  match v with
  | JVal.str s => Except.ok s
  | _ => Except.error "expected str"

/-- The dispatch and tool bodies of `run_tool` (src/tools_loop.py lines
100-107) as an exception-transparent function: `Except.error` collects every
exception a call `TOOLS[n](**a)` can raise — `KeyError` for an unknown or
non-string name (`str(KeyError(k))` is `"'k'"`), `TypeError` for bad
keywords, and whatever the tool body raises. -/
def run_toolE (root : List String) (fs : FS) (n : JVal) (a : JObj) :
    Except String (FS × String) :=
  match n with
  | JVal.str s =>
    if s = "read_file" then
      match expect1 a "path" with
      | Except.error e => Except.error e
      | Except.ok v =>
        match asStr v with
        | Except.error e => Except.error e
        | Except.ok path =>
          match read_fileE root fs path with
          | Except.error e => Except.error e
          | Except.ok r => Except.ok (fs, r)
    else if s = "write_file" then
      match expect2 a "path" "text" with
      | Except.error e => Except.error e
      | Except.ok (vp, vt) =>
        match asStr vp, asStr vt with
        | Except.ok path, Except.ok text => write_fileE root fs path text
        | _, _ => Except.error "expected str"
    else if s = "calc" then
      match expect1 a "expr" with
      | Except.error e => Except.error e
      | Except.ok v =>
        match asStr v with
        | Except.error e => Except.error e
        | Except.ok expr =>
          match calcTool expr with
          | Except.error e => Except.error e
          | Except.ok r => Except.ok (fs, r)
    else if s = "find_number" then
      match expect1 a "text" with
      | Except.error e => Except.error e
      | Except.ok v =>
        match asStr v with
        | Except.error e => Except.error e
        | Except.ok text =>
          match find_numberE text with
          | Except.error e => Except.error e
          | Except.ok r => Except.ok (fs, r)
    else Except.error ("'" ++ s ++ "'")
  | other => Except.error (pyStr other)

/-- `run_tool` from src/tools_loop.py lines 100-107: every exception from
the dispatch or the tool body is caught and converted to an `"ERROR: "`
string; the loop never sees an exception. -/
def run_tool (root : List String) (fs : FS) (n : JVal) (a : JObj) : FS × String :=
  match run_toolE root fs n a with
  | Except.ok r => r
  | Except.error e => (fs, "ERROR: " ++ e)

end ToolsLoop

-- ===== models of the specific compiled regexes used by the source =====

/-- Python regex word character `\w` (ASCII range, as exercised). -/
def isWordO : Option Char → Bool
  | none => false
  | some c => c.isAlphanum || c = '_'

/-- A `\b` word boundary between two (optional) adjacent characters. -/
def bdry (a b : Option Char) : Bool :=
  isWordO a != isWordO b

/-- Scan every position of the text left to right (with the previous
character for `\b` checks) until the position predicate holds. -/
def scanPos (f : Option Char → List Char → Bool) : Option Char → List Char → Bool
  | prev, [] => f prev []
  | prev, c :: cs => f prev (c :: cs) || scanPos f (some c) cs

/-- Match a literal at the current position, returning the rest. -/
def litThen (pat : List Char) (l : List Char) : Option (List Char) :=
  if pat.isPrefixOf l then some (l.drop pat.length) else none

/-- Match `\s+` (greedy; the following literal is never whitespace, so
taking the maximal run is exact). -/
def wsThen (l : List Char) : Option (List Char) :=
  match l with
  | c :: cs => if pyIsSpace c then some (cs.dropWhile pyIsSpace) else none
  | [] => none

/-- Close an alternative of `READ_INTENT`: the remaining input must start at
a word boundary after the alternative's last letter. -/
def altHit (o : Option (List Char)) (lastC : Char) : Bool :=
  match o with
  | some r => bdry (some lastC) r.head?
  | none => false

/-- `READ_INTENT = \b(what\s+is\s+in|show|display|print|read|open)\b` with
`re.IGNORECASE`, as a search (src/tools_loop.py line 30; the text is
lowercased first, which does not change wordness). -/
def readIntent (s : String) : Bool :=
  scanPos
    (fun prev l =>
      bdry prev l.head? &&
      (altHit ((litThen "what".data l >>= wsThen) >>= litThen "is".data >>= wsThen >>=
                 litThen "in".data) 'n' ||
       altHit (litThen "show".data l) 'w' ||
       altHit (litThen "display".data l) 'y' ||
       altHit (litThen "print".data l) 't' ||
       altHit (litThen "read".data l) 'd' ||
       altHit (litThen "open".data l) 'n'))
    none (pyLower s).data

/-- `\bwhat\s+is\s+in\b` with `re.IGNORECASE` (src/tools_loop.py line 120). -/
def whatIsInHit (s : String) : Bool :=
  scanPos
    (fun prev l =>
      bdry prev l.head? &&
      altHit ((litThen "what".data l >>= wsThen) >>= litThen "is".data >>= wsThen >>=
                litThen "in".data) 'n')
    none (pyLower s).data

/-- Characters admitted by the lazy middle of `FILE_RE` (`[^\s\"']`). -/
def notWsQuote (c : Char) : Bool :=
  !(pyIsSpace c) && c ≠ '"' && c ≠ '\''

/-- `.txt` (case-insensitive) at the current position. -/
def dotTxtAt (l : List Char) : Bool :=
  match l with
  | a :: b :: c :: d :: _ =>
    a = '.' ∧ b.toLower = 't' ∧ c.toLower = 'x' ∧ d.toLower = 't'
  | _ => false

/-- The lazy part of `FILE_RE = (?:\./|/)?[^\s\"']*?\.txt` at one position:
the shortest admissible middle followed by `.txt`. -/
def lazyTxt : List Char → Option (List Char)
  | [] => none
  | c :: cs =>
    if dotTxtAt (c :: cs) then some (List.take 4 (c :: cs))
    else if notWsQuote c then (lazyTxt cs).map (fun m => c :: m)
    else none

/-- `FILE_RE` at one position: the prefix alternation tries `./`, then `/`,
then no prefix (the regex engine's backtracking order). -/
def fileReAt (l : List Char) : Option (List Char) :=
  match l with
  | '.' :: '/' :: rest =>
    match (lazyTxt rest).map (fun m => '.' :: '/' :: m) with
    | some m => some m
    | none => lazyTxt l
  | '/' :: rest =>
    match (lazyTxt rest).map (fun m => '/' :: m) with
    | some m => some m
    | none => lazyTxt l
  | _ => lazyTxt l

/-- The punctuation stripped from matched paths:
`rstrip('.,!?:;\'")')` in both files. -/
def pstripChars : List Char :=
  ['.', ',', '!', '?', ':', ';', '\'', '"', ')']

/-- `_first_path_in` from src/tools_loop.py lines 109-112. -/
def firstPathIn (t : String) : Option String :=
  (ToolsLoop.scanFirst fileReAt t.data).map (fun m => rstripSet pstripChars (String.mk m))

/-- The character class of `PATH_RE` and of the tokenizers:
`[A-Za-z0-9._/\-]`. -/
def isPathChar (c : Char) : Bool :=
  c.isAlphanum || c = '.' || c = '_' || c = '/' || c = '-'

/-- The body of `PATH_RE = (?:\./|/)?[A-Za-z0-9._/\-]+\.[A-Za-z0-9]{1,8}`
at one position: the greedy class run backtracks to the rightmost `.` that
is followed by at least one alphanumeric; the extension then takes greedily
up to 8 alphanumerics. -/
def pathReCore (l : List Char) : Option (List Char) :=
  let run := l.takeWhile isPathChar
  (((List.range run.length).filter (fun k => 1 ≤ k ∧ run.get? k = some '.')).reverse).findSome?
    (fun k =>
      let ext := (l.drop (k + 1)).takeWhile Char.isAlphanum
      if ext.isEmpty then none
      else some (l.take (k + 1 + min 8 ext.length)))

/-- `PATH_RE` at one position (prefix alternation as for `FILE_RE`). -/
def pathReAt (l : List Char) : Option (List Char) :=
  match l with
  | '.' :: '/' :: rest =>
    match (pathReCore rest).map (fun m => '.' :: '/' :: m) with
    | some m => some m
    | none => pathReCore l
  | '/' :: rest =>
    match (pathReCore rest).map (fun m => '/' :: m) with
    | some m => some m
    | none => pathReCore l
  | _ => pathReCore l

/-- Case-insensitive literal test. -/
def ciIsPrefixOf (pat l : List Char) : Bool :=
  pat.map Char.toLower == (l.take pat.length).map Char.toLower

/-- Case-insensitive literal match returning the rest. -/
def litThenCI (pat : List Char) (l : List Char) : Option (List Char) :=
  if ciIsPrefixOf pat l then some (l.drop pat.length) else none

/-- The tail `\s+is\s+a\s+file` (with `re.IGNORECASE`) of the memory-learn
pattern, after the captured group. -/
def isAFileTail (l : List Char) : Option (List Char) :=
  (((wsThen l >>= litThenCI "is".data) >>= wsThen) >>= litThenCI "a".data) >>= wsThen >>=
    litThenCI "file".data

/-- One attempted match of `\b([A-Za-z0-9_\-./]+)\b\s+is\s+a\s+file` at the
current position: the greedy group backtracks from its maximal run until the
trailing `\b` and the literal tail match.  Returns the captured group, the
last character of the whole match (an `e`/`E` of `file` — same wordness
either way) and the rest of the text. -/
def tryIsAFileAt (prev : Option Char) (l : List Char) : Option (String × Char × List Char) :=
  if !bdry prev l.head? then none
  else
    let run := l.takeWhile isPathChar
    if run.isEmpty then none
    else
      (((List.range run.length).map (· + 1)).reverse).findSome?
        (fun len =>
          if bdry (run.get? (len - 1)) ((l.drop len).head?) then
            (isAFileTail (l.drop len)).map (fun rest => (String.mk (l.take len), 'e', rest))
          else none)

/-- `re.findall` of the memory-learn pattern: non-overlapping matches left
to right, resuming after each whole match. -/
def isAFileGroupsAux : Nat → Option Char → List Char → List String
  | 0, _, _ => []
  | _ + 1, _, [] => []
  | fuel + 1, prev, c :: cs =>
    match tryIsAFileAt prev (c :: cs) with
    | some (grp, lastC, rest) => grp :: isAFileGroupsAux fuel (some lastC) rest
    | none => isAFileGroupsAux fuel (some c) cs

/-- The groups captured by
`re.findall(r"\b([A-Za-z0-9_\-./]+)\b\s+is\s+a\s+file", up, re.IGNORECASE)`. -/
def isAFileGroups (s : String) : List String :=
  isAFileGroupsAux (s.data.length + 1) none s.data

/-- `re.search(rf"\b{re.escape(name)}\b", up, re.IGNORECASE)` as a Boolean:
the escaped name is a literal; the boundaries use the text's neighbours (a
character case-equal to the name's has the same wordness). -/
def wordBoundedHit (name : String) (s : String) : Bool :=
  let pat := name.data
  if pat.isEmpty then false
  else
    scanPos
      (fun prev l =>
        ciIsPrefixOf pat l && bdry prev l.head? &&
          bdry ((l.take pat.length).getLast?) ((l.drop pat.length).head?))
      none s.data

/-- Maximal runs of a character class (`re.findall(r"[...]+" , s)`). -/
def runsOfAux (cls : Char → Bool) : List Char → List Char → List String
  | [], cur => if cur.isEmpty then [] else [String.mk cur.reverse]
  | c :: cs, cur =>
    if cls c then runsOfAux cls cs (c :: cur)
    else if cur.isEmpty then runsOfAux cls cs []
    else String.mk cur.reverse :: runsOfAux cls cs []

/-- `re.findall(r"[A-Za-z0-9._/\-]+", up)`. -/
def tokensOf (s : String) : List String :=
  runsOfAux isPathChar s.data []

/-- The class of the arithmetic-tail pattern `([-+/*()\s.\d^]+)$`. -/
def isCalcTailChar (c : Char) : Bool :=
  c = '-' || c = '+' || c = '/' || c = '*' || c = '(' || c = ')' ||
    pyIsSpace c || c = '.' || c.isDigit || c = '^'

/-- `re.search(r"([-+/*()\s.\d^]+)$", up)`: the maximal all-class suffix
(every character of the class, including `\n`, is consumed greedily, so `$`
holds exactly at the end). -/
def calcTailOf (s : String) : Option String :=
  let suf := (s.data.reverse.takeWhile isCalcTailChar).reverse
  if suf.isEmpty then none else some (String.mk suf)

-- ===== src/agent.py: session memory and the heuristic fallback =====

namespace Agent

/-- The read directive dict built by `autowrap_to_action`. -/
def readDirective (p : String) : JObj :=
  [("tool", JVal.str "read_file"), ("args", JVal.obj [("path", JVal.str p)])]

/-- The calc directive dict built by `autowrap_to_action`. -/
def calcDirective (e : String) : JObj :=
  [("tool", JVal.str "calc"), ("args", JVal.obj [("expr", JVal.str e)])]

/-- `autowrap_to_action(raw, user_prompt)` from src/agent.py lines 163-202.
The process-global `known_files` set is threaded explicitly (`mem` in, the
updated memory out); Python set iteration order is modelled as insertion
order (no claim exercises more than one remembered name). -/
def autowrap_to_action (root : List String) (fs : FS) (mem : List String)
    (raw0 user_prompt : String) : List String × JObj :=
  let raw := pyStrip raw0
  let up := pyStrip user_prompt
  let mem2 := (isAFileGroups up).foldl
    (fun m name =>
      let n := pyLower (pyStrip name)
      if n ∈ m then m else m ++ [n])
    mem
  let defaultFinal : JObj :=
    [("final", JVal.str (if strTake 4000 raw = "" then "(no output)" else strTake 4000 raw))]
  let restRules : JObj :=
    match ToolsLoop.scanFirst pathReAt up.data with
    | some m => readDirective (rstripSet pstripChars (String.mk m))
    | none =>
      match mem2.find? (fun name => wordBoundedHit name up) with
      | some name => readDirective name
      | none =>
        match (tokensOf up).find? (fun token => (fs (pathStr (resolveAbs root token))).isSome) with
        | some token => readDirective token
        | none =>
          match calcTailOf up with
          | some suf =>
            if suf.data.any Char.isDigit then calcDirective (pyStrip suf) else defaultFinal
          | none => defaultFinal
  let dir : JObj :=
    match jsonLoads raw with
    | some (JVal.obj data) =>
      if (jLookup data "tool").isSome || (jLookup data "final").isSome then data
      else restRules
    | _ => restRules
  (mem2, dir)

end Agent

-- ===== src/tools_loop.py: the agent loop =====

/-- A role-tagged chat message. -/
structure Msg where
  role : String
  content : String

namespace ToolsLoop

/-- The `SYSTEM` prompt of src/tools_loop.py (raw string; `run_query` strips
it). -/
def SYSTEM : String :=
  "\nYou are a programmatic agent.\nYou may call only these tools:\n- read_file(path)\n- write_file(path, text)\n- calc(expr)\n- find_number(text)\n\nRules:\n- Reply with ONE JSON object ONLY:\n  \x7b\"tool\":\"<name>\",\"args\":\x7b...\x7d\x7d  OR  \x7b\"final\":\"<message>\"\x7d\n- Use a tool only when needed. For general questions, answer directly with \x7b\"final\":\"...\"\x7d.\n- After a tool call, you will receive: TOOL_RESULT: <data>\n  Then call another tool or finish with \x7b\"final\":\"...\"\x7d.\n- No prose, no markdown, no multiple objects.\n- Do NOT invent tools.\n"

/-- The corrective re-prompt appended when no directive was extracted
(src/tools_loop.py lines 165-166). -/
def corrective : Msg :=
  ⟨"user", "Return ONE JSON object only: \x7b'tool':..., 'args':...\x7d OR \x7b'final':'...' \x7d."⟩

/-- The tool branch condition of the loop body (`if tool and args is not
None`): the directive's `tool` entry is truthy and its `args` entry is a
dict.  Returns the pair when the branch applies. -/
def directiveTool (data : JObj) : Option (JVal × JObj) :=
  match pyGet data "tool", pyGet data "args" with
  | some tv, some (JVal.obj a) => if truthy tv then some (tv, a) else none
  | _, _ => none

/-- The value returned when the trust override fires:
`last_tool_result if last_tool_result else "[empty file]"`. -/
def trustValue : Option String → String
  | some r => if r = "" then "[empty file]" else r
  | none => "[empty file]"

/-- The `for _ in range(40)` loop of `run_query` (src/tools_loop.py lines
160-188).  The model backend is an oracle `llm` from the conversation so
far to the raw response; `q` is the (prefix-stripped) request, `lt` the
running `last_tool_result`.  Logging is ignored. -/
def runLoop (llm : List Msg → String) (root : List String) :
    Nat → FS → String → List Msg → Option String → FS × String
  | 0, fs, _, _, _ => (fs, "ERROR: exceeded tool loop limit")
  | fuel + 1, fs, q, msgs, lt =>
    let raw := pyStrip (llm msgs)
    match extract_last_json_dict raw with
    | none => runLoop llm root fuel fs q (msgs ++ [corrective]) lt
    | some data =>
      if data.isEmpty then runLoop llm root fuel fs q (msgs ++ [corrective]) lt
      else
        match directiveTool data with
        | some (tv, a) =>
          let assistantMsg : Msg :=
            ⟨"assistant", jdump (JVal.obj [("tool", tv), ("args", JVal.obj a)])⟩
          let pr := run_tool root fs tv a
          runLoop llm root fuel pr.1 q
            (msgs ++ [assistantMsg, ⟨"system", "TOOL_RESULT: " ++ pr.2⟩]) (some pr.2)
        | none =>
          match pyGet data "final" with
          | some f =>
            if readIntent q && lt.isSome then (fs, trustValue lt)
            else (fs, pyStr f)
          | none => runLoop llm root fuel fs q msgs lt

/-- `deterministic_execute` from src/tools_loop.py lines 118-125
(`ENABLE_DETERMINISTIC` is `True`). -/
def deterministic_execute (root : List String) (fs : FS) (p : String) : Option String :=
  if whatIsInHit p && hasSub p ".txt" then
    match firstPathIn p with
    | some path =>
      some (match read_fileE root fs path with
            | Except.ok r => r
            | Except.error e => "[error: " ++ e ++ "]")
    | none => none
  else none

/-- `run_query` from src/tools_loop.py lines 136-188: force-agent prefix,
deterministic layer, bootstrap pre-read (`ENABLE_BOOTSTRAP` is `True`;
`os.path.isfile(os.path.join(ROOT, "notes.txt"))` is the filesystem map at
the resolved path), then the bounded loop with the cap of 40. -/
def run_query (llm : List Msg → String) (root : List String) (fs : FS) (q0 : String) :
    FS × String :=
  let forced := pyStartsWith (pyLower q0) "agent:"
  let q := if forced then pyLStrip (strDrop 6 q0) else q0
  match (if forced then none else deterministic_execute root fs q) with
  | some r => (fs, r)
  | none =>
    let msgs0 : List Msg := [⟨"system", pyStrip SYSTEM⟩, ⟨"user", q⟩]
    let msgs1 :=
      if forced then msgs0
      else
        let path0 := firstPathIn q
        if path0.isSome || hasSub (pyLower q) " file" then
          let path1 :=
            if path0.isNone ∧ (fs (pathStr (resolveAbs root "notes.txt"))).isSome then
              some "./notes.txt"
            else path0
          match path1 with
          | some p =>
            if p = "" then msgs0
            else
              let pr := run_tool root fs (JVal.str "read_file") [("path", JVal.str p)]
              msgs0 ++
                [⟨"assistant",
                  jdump (JVal.obj
                    [("tool", JVal.str "read_file"),
                     ("args", JVal.obj [("path", JVal.str p)])])⟩,
                 ⟨"system", "TOOL_RESULT: " ++ pr.2⟩]
          | none => msgs0
        else msgs0
    runLoop llm root 40 fs q msgs1 none

end ToolsLoop

-- ===== helper notions for the extractor theorem =====

/-- Run the "last candidate wins" policy over a list of fragments. -/
def applyGroups (last : Option JObj) : List (List Char) → Option JObj
  | [] => last
  | g :: gs =>
    applyGroups
      (match fragParse g with
       | some j => some j
       | none => last)
      gs

/-- Left-biased choice on optional candidates. -/
def lastOr (x y : Option JObj) : Option JObj :=
  match x with
  | some j => some j
  | none => y

theorem getLastQ_cons {α : Type} (j : α) (l : List α) :
    (j :: l).getLast? =
      match l.getLast? with
      | some k => some k
      | none => some j := by
  induction l generalizing j with
  | nil => rfl
  | cons b l ih =>
    rw [List.getLast?_cons_cons, ih b]
    cases hl : l.getLast? <;> simp [ih b, hl]

theorem applyGroupsEq (gs : List (List Char)) :
    ∀ last, applyGroups last gs = lastOr ((gs.filterMap fragParse).getLast?) last := by
  induction gs with
  | nil => intro last; rfl
  | cons g gs ih =>
    intro last
    rw [applyGroups, ih]
    cases hg : fragParse g with
    | none => simp [List.filterMap_cons, hg]
    | some j =>
      simp only [List.filterMap_cons, hg]
      rw [getLastQ_cons]
      cases hl : ((gs.filterMap fragParse).getLast?) <;> simp [lastOr]

theorem extractFold (cs : List Char) :
    ∀ depth buf last,
      (List.foldl exStep (depth, buf, last) cs).2.2 = applyGroups last (groupsAux depth buf cs) := by
  induction cs with
  | nil => intro depth buf last; rfl
  | cons c cs ih =>
    intro depth buf last
    have hrl : ¬(rbrace = lbrace) := by decide
    simp only [List.foldl_cons]
    by_cases h1 : c = lbrace
    · by_cases h2 : depth = 0 <;> simp [exStep, groupsAux, h1, h2, ih]
    · by_cases h2 : c = rbrace
      · by_cases h3 : depth = 0
        · simp [exStep, groupsAux, h1, h2, h3, hrl, ih]
        · by_cases h4 : depth = 1
          · simp [exStep, groupsAux, h1, h2, h3, h4, hrl, ih, applyGroups]
          · simp [exStep, groupsAux, h1, h2, h3, h4, hrl, ih]
      · simp [exStep, groupsAux, h1, h2, ih]

/-- C3: for every input text, `extract_last_json_dict` returns the last
top-level brace-balanced fragment that parses as a JSON object (later
successful parses overwrite earlier ones, malformed fragments are skipped),
and returns none when the text has no balanced top-level brace group or no
fragment parses as an object. -/
theorem C3_extractor_last_wins :
    (∀ text : String,
       extract_last_json_dict text = ((topGroups text).filterMap fragParse).getLast?)
    ∧ (∀ text : String, (topGroups text).filterMap fragParse = [] →
       extract_last_json_dict text = none) := by
  have key : ∀ text : String,
      extract_last_json_dict text = ((topGroups text).filterMap fragParse).getLast? := by
    intro text
    show (List.foldl exStep (0, [], none) text.data).2.2 = _
    rw [extractFold, topGroups, applyGroupsEq]
    cases hl : ((groupsAux 0 [] text.data).filterMap fragParse).getLast? <;> simp [lastOr, topGroups, hl]
  refine ⟨key, ?_⟩
  intro text h
  rw [key, h]
  rfl

-- ===== shared step lemmas for the loop =====

theorem runLoopExhaust (llm : List Msg → String) (root : List String)
    (h : ∀ m, extract_last_json_dict (pyStrip (llm m)) = none) :
    ∀ fuel (fs : FS) q msgs lt,
      ToolsLoop.runLoop llm root fuel fs q msgs lt = (fs, "ERROR: exceeded tool loop limit") := by
  intro fuel
  induction fuel with
  | zero => intro fs q msgs lt; rfl
  | succ n ih =>
    intro fs q msgs lt
    rw [ToolsLoop.runLoop, h msgs]
    exact ih fs q (msgs ++ [ToolsLoop.corrective]) lt

theorem stepCorrective (llm : List Msg → String) (root : List String)
    (fuel : Nat) (fs : FS) (q : String) (msgs : List Msg) (lt : Option String)
    (h : extract_last_json_dict (pyStrip (llm msgs)) = none) :
    ToolsLoop.runLoop llm root (fuel + 1) fs q msgs lt =
      ToolsLoop.runLoop llm root fuel fs q (msgs ++ [ToolsLoop.corrective]) lt := by
  rw [ToolsLoop.runLoop, h]

theorem stepTool (llm : List Msg → String) (root : List String)
    (fuel : Nat) (fs : FS) (q : String) (msgs : List Msg) (lt : Option String)
    (data : JObj) (tv : JVal) (a : JObj)
    (hx : extract_last_json_dict (pyStrip (llm msgs)) = some data)
    (hne : data.isEmpty = false)
    (hdt : ToolsLoop.directiveTool data = some (tv, a)) :
    ToolsLoop.runLoop llm root (fuel + 1) fs q msgs lt =
      ToolsLoop.runLoop llm root fuel (ToolsLoop.run_tool root fs tv a).1 q
        (msgs ++ [⟨"assistant", jdump (JVal.obj [("tool", tv), ("args", JVal.obj a)])⟩,
                  ⟨"system", "TOOL_RESULT: " ++ (ToolsLoop.run_tool root fs tv a).2⟩])
        (some (ToolsLoop.run_tool root fs tv a).2) := by
  rw [ToolsLoop.runLoop, hx]
  simp only [hne, Bool.false_eq_true, if_false, hdt]

theorem stepFinal (llm : List Msg → String) (root : List String)
    (fuel : Nat) (fs : FS) (q : String) (msgs : List Msg) (lt : Option String)
    (data : JObj) (f : JVal)
    (hx : extract_last_json_dict (pyStrip (llm msgs)) = some data)
    (hne : data.isEmpty = false)
    (hdt : ToolsLoop.directiveTool data = none)
    (hf : pyGet data "final" = some f) :
    ToolsLoop.runLoop llm root (fuel + 1) fs q msgs lt =
      (if readIntent q && lt.isSome then (fs, ToolsLoop.trustValue lt) else (fs, pyStr f)) := by
  rw [ToolsLoop.runLoop, hx]
  simp only [hne, Bool.false_eq_true, if_false, hdt, hf]

-- ===== concrete scenario instances =====

/-- A representative project root (the code takes `ROOT` from the process's
working directory). -/
def sbRoot : List String := ["home", "paula", "LMStudioPlayground"]

def emptyFS : FS := fun _ => none

/-- Filesystem with one file `hello.txt` containing `"Hello World"`. -/
def hwFs : FS :=
  fun p => if p = "/home/paula/LMStudioPlayground/hello.txt" then some "Hello World" else none

/-- Model oracle: first a read tool call, then a final answer that claims
different content. -/
def hwLlm : List Msg → String :=
  fun msgs =>
    if msgs.length ≤ 2 then "\x7b\"tool\":\"read_file\",\"args\":\x7b\"path\":\"hello.txt\"\x7d\x7d"
    else "\x7b\"final\":\"The file says: Goodbye World\"\x7d"

/-- The conversation at loop entry for the request `read hello.txt`. -/
def hwMsgs : List Msg :=
  [⟨"system", pyStrip ToolsLoop.SYSTEM⟩, ⟨"user", "read hello.txt"⟩]

/-- Filesystem with one empty file `empty.txt`. -/
def ceFs : FS :=
  fun p => if p = "/home/paula/LMStudioPlayground/empty.txt" then some "" else none

/-- Model oracle: first a read of the empty file, then a final answer that
claims content. -/
def ceLlm : List Msg → String :=
  fun msgs =>
    if msgs.length ≤ 2 then "\x7b\"tool\":\"read_file\",\"args\":\x7b\"path\":\"empty.txt\"\x7d\x7d"
    else "\x7b\"final\":\"The file contains: secret numbers\"\x7d"

/-- Model oracle emitting a directive with a `tool` (and dict `args`) and
also a `final` key, then a plain final. -/
def bothLlm : List Msg → String :=
  fun msgs =>
    if msgs.length ≤ 2 then
      "\x7b\"tool\":\"calc\",\"args\":\x7b\"expr\":\"2+2\"\x7d,\"final\":\"100\"\x7d"
    else "\x7b\"final\":\"done\"\x7d"

/-- Model oracle emitting only a final answer. -/
def finLlm : List Msg → String :=
  fun _ => "\x7b\"final\":\"It says Goodbye\"\x7d"

/-- C5: if the model never emits a parseable directive, every planning turn
appends the corrective re-prompt and consumes one iteration, the loop runs
through its configured cap of 40 iterations and then returns the fixed
loop-exhaustion error string; via `run_query` (here entered through the
force-agent prefix) the caller observes exactly that fixed error. -/
theorem C5_loop_exhaustion :
    (∀ (llm : List Msg → String) root fuel (fs : FS) q msgs lt,
       extract_last_json_dict (pyStrip (llm msgs)) = none →
       ToolsLoop.runLoop llm root (fuel + 1) fs q msgs lt =
         ToolsLoop.runLoop llm root fuel fs q (msgs ++ [ToolsLoop.corrective]) lt)
    ∧ (∀ (llm : List Msg → String) root (fs : FS) q msgs lt,
       (∀ m, extract_last_json_dict (pyStrip (llm m)) = none) →
       ToolsLoop.runLoop llm root 40 fs q msgs lt = (fs, "ERROR: exceeded tool loop limit"))
    ∧ (∀ (llm : List Msg → String) root (fs : FS) q0,
       pyStartsWith (pyLower q0) "agent:" = true →
       (∀ m, extract_last_json_dict (pyStrip (llm m)) = none) →
       ToolsLoop.run_query llm root fs q0 = (fs, "ERROR: exceeded tool loop limit")) := by
  refine ⟨?_, ?_, ?_⟩
  · intro llm root fuel fs q msgs lt h
    exact stepCorrective llm root fuel fs q msgs lt h
  · intro llm root fs q msgs lt h
    exact runLoopExhaust llm root h 40 fs q msgs lt
  · intro llm root fs q0 hforced h
    simp only [ToolsLoop.run_query, hforced, if_true]
    exact runLoopExhaust llm root h 40 fs _ _ none

/-- C5 witness: a model that answers plain prose exhausts the loop. -/
theorem C5_witness :
    ToolsLoop.runLoop (fun _ => "I cannot answer in JSON") sbRoot 40 emptyFS "hi" [] none =
      (emptyFS, "ERROR: exceeded tool loop limit") :=
  C5_loop_exhaustion.2.1 (fun _ => "I cannot answer in JSON") sbRoot emptyFS "hi" [] none
    (fun _ => rfl)

/-- C4 counterexample: on the read-intent request `read empty.txt` a tool
call in the loop has produced the (empty) result `""`, yet when the model
emits its final answer the loop returns the placeholder `"[empty file]"`,
not that last tool result. -/
theorem C4_counterexample :
    ToolsLoop.run_tool sbRoot ceFs (JVal.str "read_file") [("path", JVal.str "empty.txt")] =
      (ceFs, "")
    ∧ readIntent "read empty.txt" = true
    ∧ (ToolsLoop.runLoop ceLlm sbRoot 40 ceFs "read empty.txt" hwMsgs none).2 = "[empty file]"
    ∧ "[empty file]" ≠ "" := by
  exact ⟨rfl, rfl, rfl, by decide⟩

/-- C4 (amended): for a request matching the read-intent verb set, when a
tool call of the loop has already produced a *nonempty* result and the model
emits a final answer, the loop returns that last tool result instead of the
model's final text (an empty tool result is replaced by the fixed
placeholder `"[empty file]"`); in particular, with a tool result
`"Hello World"` on file `hello.txt`, the loop returns `"Hello World"` even
though the model's final text claims different content. -/
theorem C4_trust_override :
    (∀ (llm : List Msg → String) root fuel (fs : FS) q msgs data r,
       readIntent q = true →
       extract_last_json_dict (pyStrip (llm msgs)) = some data →
       data.isEmpty = false →
       ToolsLoop.directiveTool data = none →
       (pyGet data "final").isSome = true →
       r ≠ "" →
       ToolsLoop.runLoop llm root (fuel + 1) fs q msgs (some r) = (fs, r))
    ∧ (ToolsLoop.runLoop hwLlm sbRoot 40 hwFs "read hello.txt" hwMsgs none).2 = "Hello World" := by
  constructor
  · intro llm root fuel fs q msgs data r hq hx hne hdt hfs hr
    obtain ⟨f, hf⟩ := Option.isSome_iff_exists.mp hfs
    rw [stepFinal llm root fuel fs q msgs (some r) data f hx hne hdt hf]
    simp [hq, ToolsLoop.trustValue, hr]
  · rfl

/-- C4 witness: the amended trust override applied at a concrete final turn
with last tool result `"Hello World"`. -/
theorem C4_witness :
    ToolsLoop.runLoop finLlm sbRoot 1 emptyFS "read x" [] (some "Hello World") =
      (emptyFS, "Hello World") :=
  C4_trust_override.1 finLlm sbRoot 0 emptyFS "read x" []
    [("final", JVal.str "It says Goodbye")] "Hello World"
    rfl rfl rfl rfl rfl (by decide)

/-- C9: when the extracted directive carries both a truthy `tool` key with a
dict `args` value and a `final` key, the loop takes the tool branch —
executes the tool, appends the directive and its observation, records the
result and continues — ignoring the final text for that turn; the final
branch is reached only when the tool branch does not apply. -/
theorem C9_tool_branch_precedence :
    (∀ (llm : List Msg → String) root fuel (fs : FS) q msgs lt data tv a,
       extract_last_json_dict (pyStrip (llm msgs)) = some data →
       data.isEmpty = false →
       ToolsLoop.directiveTool data = some (tv, a) →
       ToolsLoop.runLoop llm root (fuel + 1) fs q msgs lt =
         ToolsLoop.runLoop llm root fuel (ToolsLoop.run_tool root fs tv a).1 q
           (msgs ++ [⟨"assistant", jdump (JVal.obj [("tool", tv), ("args", JVal.obj a)])⟩,
                     ⟨"system", "TOOL_RESULT: " ++ (ToolsLoop.run_tool root fs tv a).2⟩])
           (some (ToolsLoop.run_tool root fs tv a).2))
    ∧ (∀ (llm : List Msg → String) root fuel (fs : FS) q msgs lt data f,
       extract_last_json_dict (pyStrip (llm msgs)) = some data →
       data.isEmpty = false →
       ToolsLoop.directiveTool data = none →
       pyGet data "final" = some f →
       ToolsLoop.runLoop llm root (fuel + 1) fs q msgs lt =
         (if readIntent q && lt.isSome then (fs, ToolsLoop.trustValue lt) else (fs, pyStr f))) := by
  constructor
  · intro llm root fuel fs q msgs lt data tv a hx hne hdt
    exact stepTool llm root fuel fs q msgs lt data tv a hx hne hdt
  · intro llm root fuel fs q msgs lt data f hx hne hdt hf
    exact stepFinal llm root fuel fs q msgs lt data f hx hne hdt hf

/-- C9 witness: a directive carrying both `tool` (`calc` of `2+2`) and
`final` executes the tool and loops. -/
theorem C9_witness :
    ToolsLoop.runLoop bothLlm sbRoot 6 hwFs "compute" hwMsgs none =
      ToolsLoop.runLoop bothLlm sbRoot 5
        (ToolsLoop.run_tool sbRoot hwFs (JVal.str "calc") [("expr", JVal.str "2+2")]).1
        "compute"
        (hwMsgs ++
          [⟨"assistant",
            jdump (JVal.obj
              [("tool", JVal.str "calc"), ("args", JVal.obj [("expr", JVal.str "2+2")])])⟩,
           ⟨"system",
            "TOOL_RESULT: " ++
              (ToolsLoop.run_tool sbRoot hwFs (JVal.str "calc")
                [("expr", JVal.str "2+2")]).2⟩])
        (some (ToolsLoop.run_tool sbRoot hwFs (JVal.str "calc") [("expr", JVal.str "2+2")]).2) :=
  C9_tool_branch_precedence.1 bothLlm sbRoot 5 hwFs "compute" hwMsgs none
    [("tool", JVal.str "calc"), ("args", JVal.obj [("expr", JVal.str "2+2")]),
     ("final", JVal.str "100")]
    (JVal.str "calc") [("expr", JVal.str "2+2")]
    rfl rfl rfl

/-- C10: when the trust override fires (read-intent request, a tool has
produced a result) but the last tool result is the empty string, the loop
returns the fixed placeholder `"[empty file]"` rather than the empty
string. -/
theorem C10_empty_placeholder :
    ∀ (llm : List Msg → String) root fuel (fs : FS) q msgs data,
      readIntent q = true →
      extract_last_json_dict (pyStrip (llm msgs)) = some data →
      data.isEmpty = false →
      ToolsLoop.directiveTool data = none →
      (pyGet data "final").isSome = true →
      ToolsLoop.runLoop llm root (fuel + 1) fs q msgs (some "") = (fs, "[empty file]") := by
  intro llm root fuel fs q msgs data hq hx hne hdt hfs
  obtain ⟨f, hf⟩ := Option.isSome_iff_exists.mp hfs
  rw [stepFinal llm root fuel fs q msgs (some "") data f hx hne hdt hf]
  simp [hq, ToolsLoop.trustValue]

/-- C10 witness: an empty last tool result yields `"[empty file]"` at a
concrete final turn. -/
theorem C10_witness :
    ToolsLoop.runLoop finLlm sbRoot 3 emptyFS "show me the file" [] (some "") =
      (emptyFS, "[empty file]") :=
  C10_empty_placeholder finLlm sbRoot 2 emptyFS "show me the file" []
    [("final", JVal.str "It says Goodbye")]
    rfl rfl rfl rfl rfl

-- ===== sandbox, calc, tool boundary, heuristics, round-trip =====

/-- Spec-side notion of escape ("any resolution that escapes that root"):
the resolved absolute path lies at or under the root directory exactly when
the root's components are a prefix of the resolution's components, and
escapes otherwise.  The code's check `inSandbox` instead compares the
rendered strings with `startswith`, which also accepts sibling directories
whose name merely extends the root's. -/
def escapesRoot (root : List String) (path : String) : Bool :=
  !(root.isPrefixOf (resolveAbs root path))

/-- Filesystem with one file in the sibling directory
`LMStudioPlayground2`, outside the project root `LMStudioPlayground`. -/
def siblingFS : FS :=
  fun p => if p = "/home/paula/LMStudioPlayground2/secret.txt" then some "top secret" else none

/-- C1 (code bug): the sandbox invariant — every path whose resolution
escapes the project root is rejected with no filesystem access — fails on
the code, because both files guard with the bare string-prefix check
`abs_path.startswith(ROOT)`.  For the root `/home/paula/LMStudioPlayground`,
the path `../LMStudioPlayground2/secret.txt` resolves to
`/home/paula/LMStudioPlayground2/secret.txt` — outside the root, so it
escapes — yet it passes the check: `read_file` returns the out-of-root
file's contents and `write_file` writes outside the root, in both files,
contradicting the code's own `"path outside project"` error semantics.
The claim's concrete instance `read_file("../../etc/passwd")` does return
the sandbox error for every filesystem. -/
theorem C1_sandbox_prefix_escape :
    escapesRoot sbRoot "../LMStudioPlayground2/secret.txt" = true
    ∧ pathStr (resolveAbs sbRoot "../LMStudioPlayground2/secret.txt") =
        "/home/paula/LMStudioPlayground2/secret.txt"
    ∧ inSandbox sbRoot "../LMStudioPlayground2/secret.txt" = true
    ∧ Agent.read_file sbRoot siblingFS "../LMStudioPlayground2/secret.txt" = "top secret"
    ∧ (Agent.write_file sbRoot emptyFS "../LMStudioPlayground2/secret.txt" "x").1
        "/home/paula/LMStudioPlayground2/secret.txt" = some "x"
    ∧ ToolsLoop.read_fileE sbRoot siblingFS "../LMStudioPlayground2/secret.txt" =
        Except.ok "top secret"
    ∧ (∃ fs2 m,
        ToolsLoop.write_fileE sbRoot emptyFS "../LMStudioPlayground2/secret.txt" "x" =
          Except.ok (fs2, m) ∧
        fs2 "/home/paula/LMStudioPlayground2/secret.txt" = some "x")
    ∧ (∀ fs : FS, Agent.read_file sbRoot fs "../../etc/passwd" = "ERROR: path outside project") := by
  exact ⟨rfl, rfl, rfl, rfl, rfl, rfl, ⟨_, _, rfl, rfl⟩, fun fs => rfl⟩

/-- C2: `calc` evaluates an expression only if every character is in the
fixed allow-list (digits, `+ - * / ( ) .`, whitespace, `^`) — on a failing
expression it returns the error tag for *every* evaluator, i.e. without
evaluating — and on a passing expression it evaluates the expression with
`^` rewritten to `**` first; concretely `calc("2+2") = "4"`,
`calc("2^3") = "8"`, and `calc("__import__('os')")` is rejected by the
allow-list in both files. -/
theorem C2_calc_allowlist :
    (∀ (ev : String → Except String Int) expr, safeExpr expr = false →
       Agent.calc_gen ev expr = "ERROR: invalid characters")
    ∧ (∀ (ev : String → Except String Int) expr, safeExpr expr = true →
       Agent.calc_gen ev expr =
         (match ev (caretRewrite expr) with
          | Except.ok v => toString v
          | Except.error e => "ERROR: " ++ e))
    ∧ (∀ (ev : String → Except String Int) expr, safeExpr expr = false →
       ToolsLoop.calc_gen ev expr = Except.error "bad chars in expr")
    ∧ Agent.calcTool "2+2" = "4"
    ∧ Agent.calcTool "2^3" = "8"
    ∧ Agent.calcTool "__import__('os')" = "ERROR: invalid characters"
    ∧ ToolsLoop.calcTool "2+2" = Except.ok "4"
    ∧ ToolsLoop.calcTool "2^3" = Except.ok "8"
    ∧ ToolsLoop.calcTool "__import__('os')" = Except.error "bad chars in expr" := by
  refine ⟨?_, ?_, ?_, rfl, rfl, rfl, rfl, rfl, rfl⟩
  · intro ev expr h
    unfold Agent.calc_gen
    simp [h]
  · intro ev expr h
    unfold Agent.calc_gen
    simp [h]
  · intro ev expr h
    unfold ToolsLoop.calc_gen
    simp [h]

/-- C2 witness: the allow-list rejection applied with an evaluator that
would return a value — it is never consulted. -/
theorem C2_witness :
    Agent.calc_gen (fun _ => Except.ok 0) "__import__('os')" = "ERROR: invalid characters" :=
  C2_calc_allowlist.1 (fun _ => Except.ok 0) "__import__('os')" rfl

/-- C6: the tool-execution boundary `run_tool` always returns a string pair:
whenever the dispatch or tool body raises (modelled by `run_toolE` returning
an error — including an unknown tool name or missing arguments), `run_tool`
returns an `"ERROR: "`-tagged string and leaves the filesystem unchanged;
on success it returns the tool's result; an unknown string name produces the
`KeyError` text, and a missing `path` argument for `read_file` produces a
`TypeError`-style error, never an exception. -/
theorem C6_tool_boundary :
    (∀ root (fs : FS) n a, (ToolsLoop.run_toolE root fs n a).isOk = false →
       ∃ e, ToolsLoop.run_tool root fs n a = (fs, "ERROR: " ++ e))
    ∧ (∀ root (fs : FS) n a fs2 r, ToolsLoop.run_toolE root fs n a = Except.ok (fs2, r) →
       ToolsLoop.run_tool root fs n a = (fs2, r))
    ∧ (∀ root (fs : FS) s a,
       s ≠ "read_file" → s ≠ "write_file" → s ≠ "calc" → s ≠ "find_number" →
       ToolsLoop.run_tool root fs (JVal.str s) a = (fs, "ERROR: '" ++ s ++ "'"))
    ∧ (∀ root (fs : FS),
       ToolsLoop.run_tool root fs (JVal.str "read_file") [] =
         (fs, "ERROR: missing 1 required positional argument: 'path'")) := by
  refine ⟨?_, ?_, ?_, fun root fs => rfl⟩
  · intro root fs n a h
    cases hc : ToolsLoop.run_toolE root fs n a with
    | ok v => rw [hc] at h; cases h
    | error e => exact ⟨e, by unfold ToolsLoop.run_tool; rw [hc]⟩
  · intro root fs n a fs2 r h
    unfold ToolsLoop.run_tool
    rw [h]
  · intro root fs s a h1 h2 h3 h4
    unfold ToolsLoop.run_tool ToolsLoop.run_toolE
    simp only [h1, h2, h3, h4, if_false]
    rfl

/-- C6 witness: an unknown tool name comes back as an error string. -/
theorem C6_witness :
    ToolsLoop.run_tool sbRoot emptyFS (JVal.str "frobnicate") [] =
      (emptyFS, "ERROR: 'frobnicate'") :=
  C6_tool_boundary.2.2.1 sbRoot emptyFS "frobnicate" []
    (by decide) (by decide) (by decide) (by decide)

/-- C7: a HeuristicFallback call on the request `budget.csv is a file` adds
`"budget.csv"` to the session memory whatever the raw model text and
filesystem (the memory-learn side effect precedes every rule), and a later
call on `what's inside budget.csv` returns a read directive for
`budget.csv` (whatever memory the session has accumulated). -/
theorem C7_heuristic_memory :
    (∀ root (fs : FS) mem raw,
       "budget.csv" ∈ (Agent.autowrap_to_action root fs mem raw "budget.csv is a file").1)
    ∧ (∀ root (fs : FS) mem,
       (Agent.autowrap_to_action root fs mem "" "what's inside budget.csv").2 =
         Agent.readDirective "budget.csv") := by
  constructor
  · intro root fs mem raw
    have h : (Agent.autowrap_to_action root fs mem raw "budget.csv is a file").1 =
        if "budget.csv" ∈ mem then mem else mem ++ ["budget.csv"] := rfl
    rw [h]
    by_cases hm : "budget.csv" ∈ mem
    · rw [if_pos hm]; exact hm
    · rw [if_neg hm]; exact List.mem_append_right mem (List.mem_singleton.mpr rfl)
  · intro root fs mem
    rfl

/-- C8: for an in-sandbox path, `write_file` then `read_file` round-trips
the written text up to each file's read truncation cap (4000 characters in
src/agent.py, 8000 in src/tools_loop.py); concretely, writing `"hello"` and
reading it back returns exactly `"hello"` in both files. -/
theorem C8_write_read_roundtrip :
    (∀ root (fs : FS) p text, inSandbox root p = true → p ≠ "" →
       Agent.read_file root (Agent.write_file root fs p text).1 p = strTake 4000 text)
    ∧ (∀ root (fs : FS) p text, inSandbox root p = true →
       ∃ fs2 m, ToolsLoop.write_fileE root fs p text = Except.ok (fs2, m) ∧
         ToolsLoop.read_fileE root fs2 p = Except.ok (strTake 8000 text))
    ∧ (∀ fs : FS,
       Agent.read_file sbRoot (Agent.write_file sbRoot fs "notes.txt" "hello").1 "notes.txt" =
         "hello")
    ∧ (∃ fs2 m, ToolsLoop.write_fileE sbRoot emptyFS "notes.txt" "hello" = Except.ok (fs2, m) ∧
       ToolsLoop.read_fileE sbRoot fs2 "notes.txt" = Except.ok "hello") := by
  refine ⟨?_, ?_, fun fs => rfl, ⟨_, _, rfl, rfl⟩⟩
  · intro root fs p text hin hp
    unfold inSandbox at hin
    unfold Agent.write_file
    rw [if_neg hp]
    simp only [hin]
    unfold Agent.read_file
    rw [if_neg hp]
    simp only [hin, Bool.not_true, Bool.false_eq_true, if_false, fsUpdate]
    simp
  · intro root fs p text hin
    unfold inSandbox at hin
    refine ⟨fsUpdate fs (pathStr (resolveAbs root p)) text,
      "[wrote " ++ toString text.length ++ " chars to " ++ p ++ "]", ?_, ?_⟩
    · unfold ToolsLoop.write_fileE
      simp only [hin, Bool.not_true, Bool.false_eq_true, if_false]
    · unfold ToolsLoop.read_fileE
      simp only [hin, Bool.not_true, Bool.false_eq_true, if_false, fsUpdate]
      simp

/-- C8 witness: the round-trip theorem applied at a concrete in-sandbox
path. -/
theorem C8_witness :
    Agent.read_file sbRoot (Agent.write_file sbRoot emptyFS "data.csv" "hi").1 "data.csv" =
      strTake 4000 "hi" :=
  C8_write_read_roundtrip.1 sbRoot emptyFS "data.csv" "hi" rfl (by decide)

/-- C3 witness: the no-candidate clause applied at a brace-free text. -/
theorem C3_witness : extract_last_json_dict "no braces here" = none :=
  C3_extractor_last_wins.2 "no braces here" rfl
